import Mathlib

/-!
Verification of the API Builder request-assembly and execution pipeline
(`src/App.tsx`).  The definitions below are a shallow embedding of the
TypeScript source: React `useState` cells become explicit values, the
handlers become pure functions of those values plus the external inputs
they read (the wall clock for `Date.now()`, the transport outcome for
`fetch`), and the browser collaborators (`URLSearchParams`,
`Headers.append`, `JSON.stringify` field emission) are modelled by their
standard documented semantics.
-/

/-- The `KeyValue` interface of `App.tsx`: `{ id: number; key: string; value: string }`. -/
structure KeyValue where
  id : Nat
  key : String
  value : String
deriving DecidableEq, Repr

/-- Which field of a `KeyValue` an update targets (`'key' | 'value'` in the source). -/
inductive KVField where
  | key
  | value
deriving DecidableEq, Repr

/-- JavaScript `String.prototype.trim()`: strip leading and trailing whitespace
(space, tab, CR, LF are the cases relevant here). -/
def jsTrim (s : String) : String :=
  String.mk (((s.data.dropWhile Char.isWhitespace).reverse.dropWhile Char.isWhitespace).reverse)

/-- Lowercasing of ASCII letters, as the Fetch standard applies to header names. -/
def lowerChar (c : Char) : Char :=
  if 65 ≤ c.toNat ∧ c.toNat ≤ 90 then Char.ofNat (c.toNat + 32) else c

/-- Case normalization of a header name. -/
def jsLower (s : String) : String :=
  String.mk (s.data.map lowerChar)

/-- `methodsWithBody = ['POST', 'PUT', 'PATCH']` (App.tsx line 19). -/
def methodsWithBody : List String := ["POST", "PUT", "PATCH"]

/-- `addQueryParam` (App.tsx lines 22-24): appends `{ id: Date.now(), key: '', value: '' }`.
The wall-clock reading `Date.now()` is passed in as `now`. -/
def addQueryParam (l : List KeyValue) (now : Nat) : List KeyValue :=
  l ++ [⟨now, "", ""⟩]

/-- `updateQueryParam` (App.tsx lines 26-30): maps over the list, replacing the named
field of the entry whose id matches, leaving everything else untouched. -/
def updateQueryParam (l : List KeyValue) (i : Nat) (f : KVField) (v : String) :
    List KeyValue :=
  l.map fun p =>
    if p.id = i then
      match f with
      | .key => { p with key := v }
      | .value => { p with value := v }
    else p

/-- `removeQueryParam` (App.tsx lines 32-34): id-based filter. -/
def removeQueryParam (l : List KeyValue) (i : Nat) : List KeyValue :=
  l.filter fun p => p.id != i

/-- `addHeader` (App.tsx lines 37-39): same shape as `addQueryParam`. -/
def addHeader (l : List KeyValue) (now : Nat) : List KeyValue :=
  l ++ [⟨now, "", ""⟩]

/-- `loadExample`'s header list (App.tsx lines 126-129):
`[{id: Date.now(), ...Content-Type...}, {id: Date.now()+1, ...Authorization...}]`. -/
def loadExampleHeaders (now : Nat) : List KeyValue :=
  [⟨now, "Content-Type", "application/json"⟩,
   ⟨now + 1, "Authorization", "Bearer YOUR_TOKEN_HERE"⟩]

/-! ### URL assembly (handleTestApi, App.tsx lines 57-69) -/

/-- The query-param filter of line 59: `param.key.trim() !== ''`. -/
def filteredQueryParams (l : List KeyValue) : List KeyValue :=
  l.filter fun p => !(jsTrim p.key == "")

/-- One assignment step `acc[key] = value` of the `reduce` on lines 62-65:
JavaScript object semantics keep the position of the first assignment to a key
and overwrite its value on later assignments. -/
def recordInsert : List (String × String) → String → String → List (String × String)
  | [], k, v => [(k, v)]
  | (k', v') :: rest, k, v =>
    if k' = k then (k, v) :: rest else (k', v') :: recordInsert rest k v

/-- The `reduce` of lines 62-65: fold the filtered params into a string-keyed record. -/
def buildQueryRecord (l : List KeyValue) : List (String × String) :=
  l.foldl (fun acc p => recordInsert acc p.key p.value) []

/-- Uppercase hexadecimal digit, for percent-escapes. -/
def hexDigit (n : Nat) : Char :=
  if n < 10 then Char.ofNat (48 + n) else Char.ofNat (55 + n)

/-- `%XX` escape of one byte. -/
def percentByte (b : Nat) : String :=
  String.mk ['%', hexDigit (b / 16), hexDigit (b % 16)]

/-- UTF-8 byte sequence of a Unicode code point. -/
def utf8Bytes (n : Nat) : List Nat :=
  if n < 128 then [n]
  else if n < 2048 then [192 + n / 64, 128 + n % 64]
  else if n < 65536 then [224 + n / 4096, 128 + (n / 64) % 64, 128 + n % 64]
  else [240 + n / 262144, 128 + (n / 4096) % 64, 128 + (n / 64) % 64, 128 + n % 64]

/-- Characters the application/x-www-form-urlencoded serializer leaves unescaped
(WHATWG URL standard, as implemented by `URLSearchParams.toString()`). -/
def isSafeChar (c : Char) : Bool :=
  c.isAlphanum || c = '*' || c = '-' || c = '.' || c = '_'

/-- Encode one character per the application/x-www-form-urlencoded serializer:
space becomes `+`, safe characters pass through, everything else is
percent-escaped byte-wise over its UTF-8 encoding. -/
def encodeChar (c : Char) : String :=
  if c = ' ' then "+"
  else if isSafeChar c then String.singleton c
  else String.join ((utf8Bytes c.toNat).map percentByte)

/-- Encode a whole string per application/x-www-form-urlencoded. -/
def encodeString (s : String) : String :=
  String.join (s.toList.map encodeChar)

/-- JavaScript `Array.prototype.join('&')`. -/
def joinAmp : List String → String
  | [] => ""
  | x :: xs => xs.foldl (fun a b => a ++ "&" ++ b) x

/-- `URLSearchParams(record).toString()`: `k=v` pairs joined with `&`. -/
def formEncode (pairs : List (String × String)) : String :=
  joinAmp (pairs.map fun kv => encodeString kv.1 ++ "=" ++ encodeString kv.2)

/-- The final URL computation of `handleTestApi` (App.tsx lines 57-69): start from
`apiUrl`; if the query list is non-empty, filter it, and if the filtered list is
non-empty, append `?` plus the `URLSearchParams` encoding of the record built by
the `reduce`. -/
def finalUrl (apiUrl : String) (queryParams : List KeyValue) : String :=
  if queryParams.length > 0 then
    let filteredParams := filteredQueryParams queryParams
    if filteredParams.length > 0 then
      apiUrl ++ "?" ++ formEncode (buildQueryRecord filteredParams)
    else apiUrl
  else apiUrl

/-! ### Header assembly (handleTestApi, App.tsx lines 72-77) -/

/-- `Headers.append` (Fetch standard): header names are case-insensitive (stored
lowercased); appending to an existing name combines the values with `", "`. -/
def headerAppend : List (String × String) → String → String → List (String × String)
  | [], k, v => [(k, v)]
  | (k', v') :: rest, k, v =>
    if k' = k then (k', v' ++ ", " ++ v) :: rest
    else (k', v') :: headerAppend rest k v

/-- The header-building loop of lines 72-77: for each entry whose trimmed key is
non-empty, `requestHeaders.append(header.key, header.value)`. -/
def buildHeaders (hs : List KeyValue) : List (String × String) :=
  hs.foldl
    (fun m h => if !(jsTrim h.key == "") then headerAppend m (jsLower h.key) h.value else m)
    []

/-- Assoc-list lookup on the built header mapping. -/
def hfind : List (String × String) → String → Option String
  | [], _ => none
  | (k', v) :: rest, k => if k' = k then some v else hfind rest k

/-! ### Body inclusion (App.tsx lines 84-86) -/

/-- Lines 84-86: the request carries a body exactly when
`methodsWithBody.includes(apiMethod) && requestBody.trim() !== ''`,
and the body is the raw `requestBody` text. -/
def buildBody (apiMethod requestBody : String) : Option String :=
  if methodsWithBody.contains apiMethod && !(jsTrim requestBody == "") then
    some requestBody
  else none

/-! ### JSON values, dispatch outcome and display state (App.tsx lines 52-97) -/

/-- JSON values, for response bodies and the exported configuration document.
Object fields are an ordered association list, as emitted by `JSON.stringify`. -/
inductive Json where
  | null
  | bool (b : Bool)
  | num (n : Int)
  | str (s : String)
  | arr (elems : List Json)
  | obj (fields : List (String × Json))

/-- The transport collaborator's response object: `{status, statusText, json()}`,
where `json()` either yields a parsed JSON value or throws a parse error. -/
structure TransportResponse where
  status : Nat
  statusText : String
  jsonResult : Except String Json

/-- Outcome of `await fetch(...)` (plus `await res.json()`): either a response
object was received (any status code), or the transport threw with a message. -/
inductive Outcome where
  | ok (r : TransportResponse)
  | err (message : String)

/-- The normalized result of one dispatch (ResultState of the spec). -/
inductive ResultState where
  | idle
  | pending
  | success (status : Nat) (statusText : String) (data : Json)
  | failure (message : String)

/-- The try/catch of App.tsx lines 88-94: a received response with a parseable
JSON body becomes a success with its status, statusText and data (line 91);
a JSON-parse throw or a transport throw lands in the catch block, producing the
message `` `Error: ${err.message}` `` (line 93). -/
def dispatchResult (o : Outcome) : ResultState :=
  match o with
  | .ok r =>
    match r.jsonResult with
    | .ok d => .success r.status r.statusText d
    | .error m => .failure ("Error: " ++ m)
  | .err m => .failure ("Error: " ++ m)

/-- The three display cells of the component: `isLoading`, `response`, `error`
(App.tsx lines 15-17).  The success payload is kept structured here; the
`JSON.stringify(..., null, 2)` of line 91 is presentation-layer formatting. -/
structure DisplayState where
  isLoading : Bool
  response : Option (Nat × String × Json)
  error : Option String

/-- Lines 53-55: dispatch start sets `isLoading` and clears both `error` and
`response`. -/
def startDispatch (s : DisplayState) : DisplayState :=
  { s with isLoading := true, error := none, response := none }

/-- Lines 88-97: settle the dispatch.  On success, `response` is set (line 91);
on any throw, `error` is set and `response` cleared (lines 93-94); `finally`
clears `isLoading` (line 96). -/
def settleDispatch (s : DisplayState) (o : Outcome) : DisplayState :=
  match o with
  | .ok r =>
    match r.jsonResult with
    | .ok d =>
      { s with response := some (r.status, r.statusText, d), isLoading := false }
    | .error m =>
      { s with error := some ("Error: " ++ m), response := none, isLoading := false }
  | .err m =>
    { s with error := some ("Error: " ++ m), response := none, isLoading := false }

/-- `loadExample`'s effect on the display cells (App.tsx lines 135-136):
`setResponse(null); setError(null)`. -/
def loadExampleDisplay (s : DisplayState) : DisplayState :=
  { s with response := none, error := none }

/-- Display states observable at render time: the initial state (lines 15-17),
and the states after each handler's batched updates — a `loadExample` reset, a
dispatch start, or a dispatch start followed by its settlement. -/
inductive ReachableDisplay : DisplayState → Prop where
  | init : ReachableDisplay ⟨false, none, none⟩
  | loadEx {s} : ReachableDisplay s → ReachableDisplay (loadExampleDisplay s)
  | start {s} : ReachableDisplay s → ReachableDisplay (startDispatch s)
  | settle {s} (o : Outcome) :
      ReachableDisplay s → ReachableDisplay (settleDispatch (startDispatch s) o)

/-- Mutual exclusivity of the three display fields. -/
def displayExclusive (s : DisplayState) : Prop :=
  (s.isLoading = true → s.response = none ∧ s.error = none) ∧
    ¬(s.response ≠ none ∧ s.error ≠ none)

/-! ### Export (handleExport, App.tsx lines 101-109) -/

/-- `JSON.stringify` rendering of one filtered `KeyValue`: JavaScript object
property order is creation order, so `id` comes first and is emitted — the
filter on lines 105-106 keeps whole entries, it does not strip `id`. -/
def entryToJson (p : KeyValue) : Json :=
  .obj [("id", .num p.id), ("key", .str p.key), ("value", .str p.value)]

/-- The `apiConfig` document of lines 102-108, as serialized by `JSON.stringify`
(line 109): `queryParams` and `headers` are filtered on truthiness of the
trimmed key; `requestBody` is `undefined` — hence omitted from the JSON — for
non-body-bearing methods. -/
def serialize (apiUrl apiMethod : String) (queryParams headers : List KeyValue)
    (requestBody : String) : Json :=
  .obj
    ([("apiUrl", .str apiUrl),
      ("apiMethod", .str apiMethod),
      ("queryParams", .arr ((queryParams.filter fun p => !(jsTrim p.key == "")).map entryToJson)),
      ("headers", .arr ((headers.filter fun h => !(jsTrim h.key == "")).map entryToJson))]
      ++ (if methodsWithBody.contains apiMethod then [("requestBody", .str requestBody)] else []))

/-- Assoc-list lookup for JSON object fields. -/
def jfind : List (String × Json) → String → Option Json
  | [], _ => none
  | (k', v) :: rest, k => if k' = k then some v else jfind rest k

/-- Field lookup in a JSON object. -/
def jGet (j : Json) (k : String) : Option Json :=
  match j with
  | .obj fields => jfind fields k
  | _ => none

/-- Values of the retained header entries whose case-normalized key is `k`, in
entry order. -/
def headerValuesFor (hs : List KeyValue) (k : String) : List String :=
  (hs.filter fun h => !(jsTrim h.key == "") && (jsLower h.key == k)).map KeyValue.value

/-- The combine rule of `Headers.append` for repeated names: the values joined
with `", "` (none when the name never occurs). -/
def joinCommaSep : List String → Option String
  | [] => none
  | v :: vs => some (vs.foldl (fun a b => a ++ ", " ++ b) v)

/-- Whether the first element of a config document's `queryParams` array
carries an `id` field. -/
def firstQueryParamHasId (j : Json) : Bool :=
  match jGet j "queryParams" with
  | some (.arr (x :: _)) => (jGet x "id").isSome
  | _ => false

/-! ## Theorems -/

/-- The catch block's message `` `Error: ${err.message}` `` is never empty. -/
theorem errorMessageNonempty (m : String) : "Error: " ++ m ≠ "" := by
  intro h
  have h2 := congrArg String.data h
  simp [String.data_append] at h2

/-- C2: whenever the transport returns an HTTP response — any status code,
including 4xx/5xx — whose body parses as JSON, the dispatch result is
`Success{status, statusText, data}` with the response's fields; in particular a
404 response with body `{"error":"not found"}` yields
`Success{404, "Not Found", {"error":"not found"}}`, not a `Failure`. -/
theorem c2_http_response_with_json_is_success :
    (∀ (st : Nat) (sx : String) (d : Json),
      dispatchResult (.ok ⟨st, sx, .ok d⟩) = .success st sx d)
  ∧ dispatchResult (.ok ⟨404, "Not Found", .ok (.obj [("error", .str "not found")])⟩)
      = .success 404 "Not Found" (.obj [("error", .str "not found")]) :=
  ⟨fun _ _ _ => rfl, rfl⟩

/-- C3: a transport-level failure or a JSON-parse failure yields
`Failure{message}` with a non-empty message and no success payload retained,
and every dispatch start clears the previous success and failure fields
(back to the pending state). -/
theorem c3_failures_and_dispatch_reset (s : DisplayState) (m pm : String)
    (st : Nat) (sx : String) :
    (settleDispatch (startDispatch s) (.err m)).error = some ("Error: " ++ m)
  ∧ (settleDispatch (startDispatch s) (.err m)).response = none
  ∧ "Error: " ++ m ≠ ""
  ∧ (settleDispatch (startDispatch s) (.ok ⟨st, sx, .error pm⟩)).error
      = some ("Error: " ++ pm)
  ∧ (settleDispatch (startDispatch s) (.ok ⟨st, sx, .error pm⟩)).response = none
  ∧ "Error: " ++ pm ≠ ""
  ∧ startDispatch s = ⟨true, none, none⟩ :=
  ⟨rfl, rfl, errorMessageNonempty m, rfl, rfl, errorMessageNonempty pm, rfl⟩

/-- C4: the outbound request carries a body exactly when the method is in
{POST, PUT, PATCH} and the trimmed body text is non-empty, and the body is the
raw body text with no re-encoding; in particular GET with a non-empty body
yields no body, and POST with body `{"a":1}` yields exactly `{"a":1}`. -/
theorem c4_body_iff_body_bearing_and_nonblank (m b : String) :
    (m ∈ methodsWithBody ∧ jsTrim b ≠ "" → buildBody m b = some b)
  ∧ (¬(m ∈ methodsWithBody ∧ jsTrim b ≠ "") → buildBody m b = none)
  ∧ buildBody "GET" "\x7b\"a\":1\x7d" = none
  ∧ buildBody "POST" "\x7b\"a\":1\x7d" = some "\x7b\"a\":1\x7d" := by
  refine ⟨?_, ?_, by decide, by decide⟩
  · rintro ⟨hm, hb⟩
    simp [buildBody, hm, hb]
  · intro hn
    by_cases hm : m ∈ methodsWithBody
    · have hb : jsTrim b = "" := by
        by_contra hb
        exact hn ⟨hm, hb⟩
      simp [buildBody, hb]
    · simp [buildBody, hm]

/-- C4/witness: the body-inclusion rule applied at a concrete body-bearing
input. -/
theorem c4_witness : buildBody "POST" "x" = some "x" :=
  (c4_body_iff_body_bearing_and_nonblank "POST" "x").1 ⟨by decide, by decide⟩

/-- C8: the uniqueness claim is right but the code generates ids from
`Date.now()`; two `add` operations in the same millisecond (here both at
clock value 5) produce two entries with the same id, so the ids of the
resulting list are not pairwise distinct. -/
theorem c8_wall_clock_id_collision :
    ¬ ((addQueryParam (addQueryParam [] 5) 5).map KeyValue.id).Nodup := by
  decide

/-- C9/counterexample: with `L = [{id:5, key:"a", value:"b"}]` and the clock at
5, `add` creates a fresh entry whose id 5 collides with the existing entry;
`remove` with that id then deletes both, so the list does not return to its
pre-add state (the claim as stated is false). -/
theorem c9_counterexample :
    removeQueryParam (addQueryParam [⟨5, "a", "b"⟩] 5) 5 ≠ [⟨5, "a", "b"⟩] := by
  decide

/-- C9 (amended): provided the id involved does not occur in `L` — which holds
for a freshly generated id exactly when it is genuinely fresh — `add` followed
by `remove` of that id restores `L` exactly, and `remove` and `update` with an
absent id are no-ops. -/
theorem c9_add_remove_inverse_and_noops (l : List KeyValue) (i : Nat)
    (h : ∀ p ∈ l, p.id ≠ i) :
    removeQueryParam (addQueryParam l i) i = l
  ∧ removeQueryParam l i = l
  ∧ ∀ (f : KVField) (v : String), updateQueryParam l i f v = l := by
  have h1 : l.filter (fun p => p.id != i) = l :=
    List.filter_eq_self.mpr fun p hp => by simp [h p hp]
  refine ⟨?_, h1, ?_⟩
  · unfold removeQueryParam addQueryParam
    rw [List.filter_append, h1]
    simp
  · intro f v
    unfold updateQueryParam
    have h2 : ∀ p ∈ l,
        (if p.id = i then
          (match f with
            | KVField.key => { p with key := v }
            | KVField.value => { p with value := v })
        else p) = id p := by
      intro p hp
      simp [h p hp]
    rw [List.map_congr_left h2, List.map_id]

/-- C9/witness: the amended inverse law at a concrete list and a fresh id. -/
theorem c9_witness :
    removeQueryParam (addQueryParam [⟨1, "a", "b"⟩] 2) 2 = [⟨1, "a", "b"⟩] :=
  (c9_add_remove_inverse_and_noops [⟨1, "a", "b"⟩] 2 (by decide)).1

/-- C10: assembly filters on the trimmed key but emits the original untrimmed
key and value: a single entry is retained exactly when its trimmed key is
non-empty, and is then encoded from its original key and value; in particular
key `" a "` with value `"b"` is encoded as `+a+=b` (whitespace escaped per the
urlencoded serializer), not as `a=b`. -/
theorem c10_untrimmed_key_emitted :
    (∀ (u k v : String) (i : Nat),
      finalUrl u [⟨i, k, v⟩] =
        if jsTrim k == "" then u
        else u ++ "?" ++ encodeString k ++ "=" ++ encodeString v)
  ∧ finalUrl "u" [⟨1, " a ", "b"⟩] = "u?+a+=b"
  ∧ ("u?+a+=b" : String) ≠ "u?a=b" := by
  refine ⟨?_, by decide, by decide⟩
  intro u k v i
  by_cases hc : jsTrim k == ""
  · simp [finalUrl, filteredQueryParams, hc]
  · simp [finalUrl, filteredQueryParams, hc, buildQueryRecord, recordInsert,
      formEncode, joinAmp, String.append_assoc]

/-- C6: in every display state observable at render time, the pending flag is
never set together with a success payload or an error message, and the success
payload and the error message are never both present. -/
theorem c6_display_fields_mutually_exclusive (s : DisplayState)
    (h : ReachableDisplay s) : displayExclusive s := by
  induction h with
  | init => simp [displayExclusive]
  | loadEx _ ih => simp [displayExclusive, loadExampleDisplay]
  | start _ ih => simp [displayExclusive, startDispatch]
  | settle o _ ih =>
    cases o with
    | ok r =>
      obtain ⟨st, sx, jr⟩ := r
      cases jr with
      | ok d => simp [displayExclusive, settleDispatch, startDispatch]
      | error m => simp [displayExclusive, settleDispatch, startDispatch]
    | err m => simp [displayExclusive, settleDispatch, startDispatch]

/-- C6/witness: mutual exclusivity at the initial display state. -/
theorem c6_witness : displayExclusive ⟨false, none, none⟩ :=
  c6_display_fields_mutually_exclusive _ ReachableDisplay.init

/-- C1/counterexample: with two retained entries sharing the key `a`, the
urlencoded encoding of exactly the filtered entries is `a=1&a=2`, but the
assembled URL is `u?a=2` — the `reduce` into a JavaScript object collapses
duplicate keys before encoding, so the claim as stated is false. -/
theorem c1_counterexample :
    finalUrl "u" [⟨1, "a", "1"⟩, ⟨2, "a", "2"⟩] = "u?a=2"
  ∧ formEncode ([⟨1, "a", "1"⟩, ⟨2, "a", "2"⟩].map fun p : KeyValue => (p.key, p.value))
      = "a=1&a=2"
  ∧ ("u?a=2" : String) ≠ "u" ++ "?" ++ "a=1&a=2" := by decide

/-- C1 (amended): assembly discards query entries whose trimmed key is empty;
if the remaining filtered list is empty the base URL is used unmodified, and
otherwise the assembled URL is the base URL plus `?` plus the urlencoded
encoding of the filtered entries collapsed into a record (first-occurrence
position, last-written value on duplicate keys); in particular for
`[{key:"", value:"x"}, {key:"a", value:"b"}]` the URL contains exactly `?a=b`. -/
theorem c1_query_assembly (base : String) (params : List KeyValue) :
    (filteredQueryParams params = [] → finalUrl base params = base)
  ∧ (filteredQueryParams params ≠ [] →
      finalUrl base params
        = base ++ "?" ++ formEncode (buildQueryRecord (filteredQueryParams params)))
  ∧ finalUrl "u" [⟨1, "", "x"⟩, ⟨2, "a", "b"⟩] = "u?a=b" := by
  refine ⟨?_, ?_, by decide⟩
  · intro h
    by_cases hp : params.length > 0
    · simp [finalUrl, hp, h]
    · simp [finalUrl, hp]
  · intro h
    have hp : params.length > 0 := by
      cases params with
      | nil => simp [filteredQueryParams] at h
      | cons a l => simp
    have hf : (filteredQueryParams params).length > 0 :=
      List.length_pos.mpr h
    simp [finalUrl, hp, hf]

/-- C1/witness: the non-empty-filter branch of the amended claim at a concrete
input. -/
theorem c1_witness :
    finalUrl "u" [⟨1, "a", "b"⟩]
      = "u" ++ "?" ++ formEncode (buildQueryRecord (filteredQueryParams [⟨1, "a", "b"⟩])) :=
  (c1_query_assembly "u" [⟨1, "a", "b"⟩]).2.1 (by decide)

/-- C5/counterexample: serializing a state with one valid query param produces
an element that still carries the `id` field — the filter of `handleExport`
keeps whole entries and `JSON.stringify` emits `id` — so the document is not
the id-stripped one the claim prescribes. -/
theorem c5_counterexample :
    serialize "u" "GET" [⟨7, "a", "b"⟩] [] ""
      = Json.obj [("apiUrl", .str "u"), ("apiMethod", .str "GET"),
          ("queryParams", .arr [.obj [("id", .num 7), ("key", .str "a"), ("value", .str "b")]]),
          ("headers", .arr [])]
  ∧ serialize "u" "GET" [⟨7, "a", "b"⟩] [] ""
      ≠ Json.obj [("apiUrl", .str "u"), ("apiMethod", .str "GET"),
          ("queryParams", .arr [.obj [("key", .str "a"), ("value", .str "b")]]),
          ("headers", .arr [])] := by
  refine ⟨rfl, ?_⟩
  intro h
  have h1 : firstQueryParamHasId (serialize "u" "GET" [⟨7, "a", "b"⟩] [] "") = true := rfl
  rw [h] at h1
  exact absurd h1 (by decide)

/-- C5 (amended): the serialized document contains `{apiUrl, apiMethod,
queryParams, headers, requestBody}` where `queryParams` and `headers` hold
exactly the entries whose trimmed key is non-empty with the `id` field
retained (each element being `{id, key, value}`), and `requestBody` is present
exactly when the method is body-bearing; a state with one empty-key header and
one valid header serializes to a `headers` array with exactly one entry. -/
theorem c5_serialize_shape (u m b : String) (qs hs : List KeyValue) :
    jGet (serialize u m qs hs b) "apiUrl" = some (.str u)
  ∧ jGet (serialize u m qs hs b) "apiMethod" = some (.str m)
  ∧ jGet (serialize u m qs hs b) "queryParams"
      = some (.arr ((qs.filter fun p => !(jsTrim p.key == "")).map entryToJson))
  ∧ jGet (serialize u m qs hs b) "headers"
      = some (.arr ((hs.filter fun h => !(jsTrim h.key == "")).map entryToJson))
  ∧ jGet (serialize u m qs hs b) "requestBody"
      = (if methodsWithBody.contains m then some (.str b) else none)
  ∧ jGet (serialize "u" "GET" [] [⟨1, "", "x"⟩, ⟨2, "Content-Type", "application/json"⟩] "")
        "headers"
      = some (.arr [entryToJson ⟨2, "Content-Type", "application/json"⟩]) := by
  refine ⟨rfl, rfl, rfl, rfl, ?_, rfl⟩
  by_cases hm : m ∈ methodsWithBody <;>
    simp [serialize, jGet, jfind, hm]

/-- Looking up the appended name after `headerAppend`: the new value is
combined onto the old one with `", "` when the name was present. -/
theorem hfind_headerAppend_same (m : List (String × String)) (k v : String) :
    hfind (headerAppend m k v) k
      = some (match hfind m k with | some v0 => v0 ++ ", " ++ v | none => v) := by
  induction m with
  | nil => simp [headerAppend, hfind]
  | cons kv rest ih =>
    obtain ⟨k', v'⟩ := kv
    by_cases h : k' = k
    · subst h
      simp [headerAppend, hfind]
    · simp [headerAppend, hfind, h, ih]

/-- `headerAppend` leaves lookups of other names unchanged. -/
theorem hfind_headerAppend_other (m : List (String × String)) (k k' v : String)
    (h : k' ≠ k) : hfind (headerAppend m k' v) k = hfind m k := by
  induction m with
  | nil => simp [headerAppend, hfind, h]
  | cons kv rest ih =>
    obtain ⟨k2, v2⟩ := kv
    by_cases h2 : k2 = k'
    · subst h2
      simp [headerAppend, hfind, h]
    · simp [headerAppend, hfind, h2, ih]

/-- The header-building fold, generalized over the accumulator: the final value
bound to `k` is the `", "`-join of the accumulator's value (if any) with the
values of all retained entries whose case-normalized key is `k`, in order. -/
theorem hfind_buildHeaders_fold (hs : List KeyValue)
    (m : List (String × String)) (k : String) :
    hfind
        (hs.foldl
          (fun m h =>
            if !(jsTrim h.key == "") then headerAppend m (jsLower h.key) h.value else m)
          m)
        k
      = match hfind m k with
        | some v0 => some ((headerValuesFor hs k).foldl (fun a b => a ++ ", " ++ b) v0)
        | none => joinCommaSep (headerValuesFor hs k) := by
  induction hs generalizing m with
  | nil =>
    cases hh : hfind m k <;> simp [headerValuesFor, joinCommaSep, hh]
  | cons h rest ih =>
    by_cases hr : (!(jsTrim h.key == "")) = true
    · by_cases hk : jsLower h.key = k
      · subst hk
        rw [List.foldl_cons, if_pos hr, ih]
        rw [hfind_headerAppend_same]
        have hv : headerValuesFor (h :: rest) (jsLower h.key)
            = h.value :: headerValuesFor rest (jsLower h.key) := by
          simp [headerValuesFor, hr]
        rw [hv]
        cases hfind m (jsLower h.key) <;> simp [joinCommaSep]
      · rw [List.foldl_cons, if_pos hr, ih]
        rw [hfind_headerAppend_other _ _ _ _ hk]
        have hv : headerValuesFor (h :: rest) k = headerValuesFor rest k := by
          simp [headerValuesFor, hk, hr]
        rw [hv]
    · rw [List.foldl_cons, if_neg hr, ih]
      have hv : headerValuesFor (h :: rest) k = headerValuesFor rest k := by
        have hr2 : (jsTrim h.key == "") = true := by
          revert hr
          cases jsTrim h.key == "" <;> simp
        simp [headerValuesFor, hr2]
      rw [hv]

/-- C7/counterexample: two retained entries share the key `X-A` with values
`1` and `2`; the built header mapping binds the name to `1, 2` — the
`Headers.append` combine rule — not to the last-written value `2`, so the
last-write-wins claim is false. -/
theorem c7_counterexample :
    buildHeaders [⟨1, "X-A", "1"⟩, ⟨2, "X-A", "2"⟩] = [("x-a", "1, 2")]
  ∧ hfind (buildHeaders [⟨1, "X-A", "1"⟩, ⟨2, "X-A", "2"⟩]) "x-a" = some "1, 2"
  ∧ ("1, 2" : String) ≠ "2" := by decide

/-- C7 (amended): request assembly discards header entries whose trimmed key
is empty and builds an ordered header mapping from the rest in which, when two
or more retained entries share the same (case-insensitive) key, the bound
value is the `", "`-join of all their values in entry order — `Headers.append`
combine semantics, not last-write-wins. -/
theorem c7_headers_filter_and_combine (hs : List KeyValue) (k : String) :
    hfind (buildHeaders hs) k = joinCommaSep (headerValuesFor hs k) := by
  have h := hfind_buildHeaders_fold hs [] k
  simpa [buildHeaders, hfind] using h
